import Mathlib

/-!
Shallow embedding of `index-pgn/src/bin/index-lichess.rs`, the Lichess
PGN ingestion pipeline: speed classification, header-driven game record
building, the stochastic sampling policy, and per-file batching.

Modelling conventions:
* Rust `u64`/`u16` values are `Nat`; arithmetic that can overflow is written
  with an explicit `% 2 ^ 64` (resp. `% 2 ^ 16`), matching wrapping semantics.
* Header values and keys are `String`s; byte-level parsing (`btoi`) is
  modelled on the character list of the string.
* `f64` probabilities and the `OpenClosed01` samples are modelled as `ℚ`.
  The PRNG (`SmallRng` seeded with the fixed 32-byte constant) is modelled
  abstractly as the stream of samples it produces plus a position; seeding
  with the constant seed corresponds to position `0` of a fixed stream.
* Panics (`expect`) are modelled as `Except.error`.
* The bounded crossbeam channel is modelled by the ordered list of batches
  handed over so far (`sent`); FIFO delivery keeps that order.
-/

namespace OpeningExplorer

/-- Speed buckets, as in the `Speed` enum of the importer. -/
inductive Speed where
  | UltraBullet
  | Bullet
  | Blitz
  | Rapid
  | Classical
  | Correspondence
deriving DecidableEq

/-- Size of the `u64` value space. -/
def u64Size : Nat := 2 ^ 64

/-- Size of the `u16` value space. -/
def u16Size : Nat := 2 ^ 16

/-- Models `Speed::from_seconds_and_increment`.  The Rust source computes
`seconds + 40 * increment` in `u64` arithmetic, which wraps modulo `2 ^ 64`,
and then compares the total against fixed thresholds. -/
def Speed.from_seconds_and_increment (seconds increment : Nat) : Speed :=
  let total := (seconds + 40 * increment) % u64Size
  if total < 30 then .UltraBullet
  else if total < 180 then .Bullet
  else if total < 480 then .Blitz
  else if total < 1500 then .Rapid
  else if total < 21600 then .Classical
  else .Correspondence

/-- Decimal digit parser underlying the `btoi`/`btou` calls: a nonempty,
all-digit character sequence denotes its decimal value, anything else fails. -/
def parseNatDigits (l : List Char) : Option Nat :=
  if l = [] then none
  else if l.all (fun c => c.isDigit) then
    some (l.foldl (fun a c => a * 10 + (c.toNat - 48)) 0)
  else none

/-- Models `btoi::btoi::<u16>` on a header value: an optional leading sign
followed by digits, failing on overflow past `u16`. -/
def parseU16 (s : String) : Option Nat :=
  let l := match s.data with
    | '+' :: rest => rest
    | l => l
  match parseNatDigits l with
  | some n => if n < u16Size then some n else none
  | none => none

/-- Models `btoi::btou::<u64>`: digits only, failing on overflow past `u64`. -/
def parseU64 (s : String) : Option Nat :=
  match parseNatDigits s.data with
  | some n => if n < u64Size then some n else none
  | none => none

/-- Splits a character list at the first occurrence of `+`, as
`splitn(2, |ch| *ch == b'+')` does; `none` when no `+` occurs, in which case
the second `parts.next()` of the source returns `None`. -/
def splitPlus : List Char → Option (List Char × List Char)
  | [] => none
  | c :: rest =>
    if c = '+' then some ([], rest)
    else (splitPlus rest).map (fun p => (c :: p.1, p.2))

/-- Models `Speed::from_bytes`: the sentinel `-` means correspondence,
otherwise the value must split at the first `+` into two `u64` integers. -/
def Speed.from_bytes (s : String) : Option Speed :=
  if s = "-" then some .Correspondence
  else
    match splitPlus s.data with
    | none => none
    | some (a, b) =>
      match parseU64 (String.mk a), parseU64 (String.mk b) with
      | some seconds, some increment =>
        some (Speed.from_seconds_and_increment seconds increment)
      | _, _ => none

/-- Side to move / winner colour. -/
inductive Color where
  | White
  | Black
deriving DecidableEq

/-- Models the external `Outcome::from_ascii` composed with `Outcome::winner`,
per the spec: a result is parseable exactly when it is one of white wins,
black wins, draw, or unknown; the winner is absent for a draw or unknown. -/
def parseOutcome (s : String) : Option (Option Color) :=
  if s = "1-0" then some (some .White)
  else if s = "0-1" then some (some .Black)
  else if s = "1/2-1/2" then some none
  else if s = "*" then some none
  else none

/-- One player of a game: `struct Player`. -/
structure Player where
  name : Option String := none
  rating : Option Nat := none
deriving DecidableEq

/-- One parsed game: `struct Game`.  Moves are kept as their SAN text. -/
structure Game where
  variant : Option String := none
  speed : Option Speed := none
  fen : Option String := none
  id : Option String := none
  date : Option String := none
  white : Player := {}
  black : Player := {}
  winner : Option Color := none
  moves : List String := []
deriving DecidableEq

/-- One upload unit: `struct Batch`. -/
structure Batch where
  filename : String
  games : List Game
deriving DecidableEq

/-- Abstract model of the sampling PRNG: `SmallRng` seeded from the fixed
32-byte constant yields a fixed stream of `OpenClosed01` samples; the state
is the position in that stream.  A freshly seeded generator is position `0`. -/
structure Rng where
  stream : Nat → ℚ
  idx : Nat

/-- Models `self.rng.sample(OpenClosed01)`: returns the next sample and the
advanced generator state. -/
def Rng.sample (r : Rng) : ℚ × Rng :=
  (r.stream r.idx, ⟨r.stream, r.idx + 1⟩)

/-- The importer state: `struct Importer`.  The channel sender `tx` is
modelled by `sent`, the ordered list of batches handed to the channel so
far (the bounded channel delivers them FIFO to the uploader). -/
structure Importer where
  filename : String
  batch_size : Nat
  rng : Rng
  current : Game
  skip : Bool
  batch : List Game
  sent : List Batch

/-- Models `Importer::new`: fresh state with an empty batch and the PRNG
freshly seeded from the fixed constant seed (position `0` of the seed
stream). -/
def Importer.new (filename : String) (batch_size : Nat) (seedStream : Nat → ℚ) :
    Importer :=
  { filename := filename
    batch_size := batch_size
    rng := ⟨seedStream, 0⟩
    current := {}
    skip := false
    batch := []
    sent := [] }

/-- Models `Importer::send`: hand the current batch to the channel and
replace it with a fresh empty one. -/
def Importer.send (st : Importer) : Importer :=
  { st with
    sent := st.sent ++ [{ filename := st.filename, games := st.batch }]
    batch := [] }

/-- Models `Visitor::begin_game`: reset the skip flag and the working record. -/
def Importer.begin_game (st : Importer) : Importer :=
  { st with skip := false, current := {} }

/-- Models the `Site` header reduction `rsplitn(2, b'/').next()`: the text
after the last `/`, or the whole value when there is no `/`. -/
def lastSegment (value : String) : String :=
  String.mk ((value.data.reverse.takeWhile (fun c => ¬ (c = '/'))).reverse)

/-- The canonical standard starting position, normalized away by the `FEN`
header branch. -/
def standardFen : String :=
  "rnbqkbnr/pppppppp/8/8/8/8/PPPPPPPP/RNBQKBNR w KQkq - 0 1"

/-- The header keys the visitor dispatches on. -/
inductive HeaderKey where
  | KWhite
  | KBlack
  | KWhiteElo
  | KBlackElo
  | KTimeControl
  | KVariant
  | KDate
  | KTitle
  | KSite
  | KResult
  | KFen
  | KOther
deriving DecidableEq

/-- The key dispatch of `Visitor::header`, mirroring its if/else chain (the
two date keys share a branch, as do the two title keys). -/
def classifyKey (key : String) : HeaderKey :=
  if key = "White" then .KWhite
  else if key = "Black" then .KBlack
  else if key = "WhiteElo" then .KWhiteElo
  else if key = "BlackElo" then .KBlackElo
  else if key = "TimeControl" then .KTimeControl
  else if key = "Variant" then .KVariant
  else if key = "Date" ∨ key = "UTCDate" then .KDate
  else if key = "WhiteTitle" ∨ key = "BlackTitle" then .KTitle
  else if key = "Site" then .KSite
  else if key = "Result" then .KResult
  else if key = "FEN" then .KFen
  else .KOther

/-- Branches of `Visitor::header` on the only fields it reads or writes: the
working record and the skip flag.  `expect` panics on unparseable Elo or
time-control values are errors. -/
def headerStep (g : Game) (sk : Bool) (key value : String) :
    Except String (Game × Bool) :=
  match classifyKey key with
  | .KWhite => .ok ({ g with white.name := some value }, sk)
  | .KBlack => .ok ({ g with black.name := some value }, sk)
  | .KWhiteElo =>
    if value ≠ "?" then
      match parseU16 value with
      | some r => .ok ({ g with white.rating := some r }, sk)
      | none => .error "WhiteElo"
    else .ok (g, sk)
  | .KBlackElo =>
    if value ≠ "?" then
      match parseU16 value with
      | some r => .ok ({ g with black.rating := some r }, sk)
      | none => .error "BlackElo"
    else .ok (g, sk)
  | .KTimeControl =>
    match Speed.from_bytes value with
    | some sp => .ok ({ g with speed := some sp }, sk)
    | none => .error "TimeControl"
  | .KVariant => .ok ({ g with variant := some value }, sk)
  | .KDate => .ok ({ g with date := some value }, sk)
  | .KTitle => if value = "BOT" then .ok (g, true) else .ok (g, sk)
  | .KSite => .ok ({ g with id := some (lastSegment value) }, sk)
  | .KResult =>
    match parseOutcome value with
    | some w => .ok ({ g with winner := w }, sk)
    | none => .ok (g, true)
  | .KFen =>
    if value = standardFen then
      .ok ({ g with fen := none }, sk)
    else
      .ok ({ g with fen := some value }, sk)
  | .KOther => .ok (g, sk)

/-- Models `Visitor::header`: one header key/value observation, which only
updates the working record and the skip flag. -/
def Importer.header (st : Importer) (key value : String) :
    Except String Importer :=
  (headerStep st.current st.skip key value).map
    (fun p => { st with current := p.1, skip := p.2 })

/-- The average rating computed at the start of `Importer::end_headers`:
absent ratings count as `0`, and the sum is a `u16` addition, wrapping
modulo `2 ^ 16`, before halving. -/
def avgRating (g : Game) : Nat :=
  ((g.white.rating.getD 0 + g.black.rating.getD 0) % u16Size) / 2

/-- The `standard` flag of `Importer::end_headers`: an absent variant header
counts as standard. -/
def isStandard (g : Game) : Bool :=
  match g.variant with
  | none => true
  | some name => name == "Standard"

/-- The acceptance probability of `Importer::end_headers`, with the match
arms taken in source order (`0.83` becomes `mkRat 83 100`, and so on). -/
def acceptProbability (g : Game) : ℚ :=
  let rating := avgRating g
  let sp := g.speed.getD .Correspondence
  if isStandard g then
    if sp = .Correspondence ∨ sp = .Classical then mkRat 100 100
    else if 2500 ≤ rating then mkRat 100 100
    else if sp = .Rapid ∧ 2200 ≤ rating then mkRat 100 100
    else if sp = .Rapid ∧ 2000 ≤ rating then mkRat 83 100
    else if sp = .Rapid ∧ 1800 ≤ rating then mkRat 46 100
    else if sp = .Rapid ∧ 1600 ≤ rating then mkRat 39 100
    else if sp = .Blitz ∧ 2200 ≤ rating then mkRat 38 100
    else if sp = .Blitz ∧ 2000 ≤ rating then mkRat 18 100
    else if sp = .Blitz ∧ 1600 ≤ rating then mkRat 13 100
    else if sp = .Bullet ∧ 2200 ≤ rating then mkRat 48 100
    else if sp = .Bullet ∧ 2000 ≤ rating then mkRat 27 100
    else if sp = .Bullet ∧ 1800 ≤ rating then mkRat 19 100
    else if sp = .Bullet ∧ 1600 ≤ rating then mkRat 18 100
    else if sp = .UltraBullet then mkRat 100 100
    else mkRat 2 100
  else
    if 1600 ≤ rating then mkRat 100 100 else mkRat 50 100

/-- Models `Visitor::end_headers`.  The accept condition is
`min(whiteElo, blackElo) >= 1501 && probability >= sample && !skip` with
Rust short-circuit evaluation: the sample is drawn only when the minimum
rating test passes.  Returns the `Skip` value together with the new state. -/
def Importer.end_headers (st : Importer) : Bool × Importer :=
  let probability := acceptProbability st.current
  if 1501 ≤ min (st.current.white.rating.getD 0) (st.current.black.rating.getD 0)
  then
    let (x, rng2) := st.rng.sample
    let accept := (decide (x ≤ probability)) && !st.skip
    let st2 := { st with rng := rng2, skip := !accept }
    (st2.skip, st2)
  else
    let st2 := { st with skip := true }
    (st2.skip, st2)

/-- Models `Visitor::san`: append one mainline move. -/
def Importer.san (st : Importer) (m : String) : Importer :=
  { st with current.moves := st.current.moves ++ [m] }

/-- Models `Visitor::begin_variation`: always skip, staying in the mainline. -/
def Importer.begin_variation (_ : Importer) : Bool :=
  true

/-- Models `Visitor::end_game`: an unskipped record is moved into the batch
(leaving a default record behind), and a full batch is flushed. -/
def Importer.end_game (st : Importer) : Importer :=
  if st.skip then st
  else
    let st2 := { st with batch := st.batch ++ [st.current], current := {} }
    if st2.batch_size ≤ st2.batch.length then st2.send else st2

/-- One game of an input file, as the event source presents it: its headers
in order and its mainline SAN moves in order. -/
structure GameInput where
  headers : List (String × String)
  sans : List String

/-- One archive file: its name and its games in order. -/
structure FileInput where
  filename : String
  games : List GameInput

/-- Models the external reader driving the visitor through one game:
`begin_game`, each header, `end_headers` (whose `Skip(true)` makes the
reader omit all move events), the moves, `end_game`.  Alongside the new
state it reports the record appended by `end_game`, if any. -/
def runGame (st : Importer) (g : GameInput) :
    Except String (Importer × Option Game) :=
  match (g.headers.foldlM (fun s kv => s.header kv.1 kv.2) st.begin_game :
      Except String Importer) with
  | .error e => .error e
  | .ok st1 =>
    let sk := (st1.end_headers).1
    let st2 := (st1.end_headers).2
    let st3 := if sk then st2 else g.sans.foldl Importer.san st2
    .ok (st3.end_game, if st3.skip then none else some st3.current)

/-- Runs the visitor over the games of one file in order, collecting the
per-game appended records. -/
def runGames (st : Importer) :
    List GameInput → Except String (Importer × List (Option Game))
  | [] => .ok (st, [])
  | g :: rest =>
    match runGame st g with
    | .error e => .error e
    | .ok (st1, r) =>
      match runGames st1 rest with
      | .error e => .error e
      | .ok (st2, tr) => .ok (st2, r :: tr)

/-- Models the per-file part of `main`: a fresh `Importer` (PRNG freshly
seeded from the constant seed), `reader.read_all`, then the final
`importer.send()`. -/
def runFile (seedStream : Nat → ℚ) (batch_size : Nat) (f : FileInput) :
    Except String (Importer × List (Option Game)) :=
  match runGames (Importer.new f.filename batch_size seedStream) f.games with
  | .error e => .error e
  | .ok (st, tr) => .ok (st.send, tr)

/-- Models `main`'s loop over the input files: each file gets a fresh
`Importer`, and the channel receives the flushed batches of all files in
order. -/
def runMain (seedStream : Nat → ℚ) (batch_size : Nat) :
    List FileInput → Except String (List Batch)
  | [] => .ok []
  | f :: rest =>
    match runFile seedStream batch_size f with
    | .error e => .error e
    | .ok (st, _) =>
      match runMain seedStream batch_size rest with
      | .error e => .error e
      | .ok batches => .ok (st.sent ++ batches)

/-- Modelled from the spec: a run of one file starting from a given PRNG
state instead of a freshly seeded one; used to express the spec's reading
that the PRNG stream continues across files. -/
def runFileFrom (rng : Rng) (batch_size : Nat) (f : FileInput) :
    Except String (Importer × List (Option Game)) :=
  match runGames { Importer.new f.filename batch_size rng.stream with rng := rng } f.games with
  | .error e => .error e
  | .ok (st, tr) => .ok (st.send, tr)

/-- Modelled from the spec: "draw one sample from a deterministic
pseudo-random source seeded once per run with a fixed constant seed", i.e.
a run whose sampling PRNG is seeded exactly once at the start and whose
stream continues from file to file instead of being rebuilt per file. -/
def runMainSeededOnce (batch_size : Nat) :
    Rng → List FileInput → Except String (List Batch)
  | _, [] => .ok []
  | rng, f :: rest =>
    match runFileFrom rng batch_size f with
    | .error e => .error e
    | .ok (st, _) =>
      match runMainSeededOnce batch_size st.rng rest with
      | .error e => .error e
      | .ok batches => .ok (st.sent ++ batches)

/-- One sampling-policy input: the record built from the headers and the
rejection flag as they stand when the headers end. -/
structure PolicyInput where
  game : Game
  skip : Bool

/-- An importer about to take the end-of-headers decision for the given
policy input with the given PRNG state.  The fields not read by
`end_headers` are left trivial. -/
def mkSampler (rng : Rng) (inp : PolicyInput) : Importer :=
  { filename := ""
    batch_size := 0
    rng := rng
    current := inp.game
    skip := inp.skip
    batch := []
    sent := [] }

/-- The accept/reject outcome sequence of a sequence of sampling decisions
taken with a single PRNG threaded through (`true` = accept). -/
def decideSeq (rng : Rng) : List PolicyInput → List Bool
  | [] => []
  | inp :: rest =>
    let (sk, st) := (mkSampler rng inp).end_headers
    (!sk) :: decideSeq st.rng rest

/-- The position of a bucket in the fast-to-slow classification order, used
to state monotonicity of the classifier. -/
def speedIdx : Speed → Nat
  | .UltraBullet => 0
  | .Bullet => 1
  | .Blitz => 2
  | .Rapid => 3
  | .Classical => 4
  | .Correspondence => 5

/-- A constant sample stream: every sample is one half. -/
def halfStream : Nat → ℚ := fun _ => mkRat 1 2

/-- A sample stream whose first sample is `1` and later samples `1 / 100`. -/
def exStream : Nat → ℚ := fun n => if n = 0 then mkRat 1 1 else mkRat 1 100

/-- A record with both players rated 2600 and nothing else set. -/
def strongGame : Game :=
  { white := { rating := some 2600 }, black := { rating := some 2600 } }

/-- Header events rating both players 2600. -/
def strongInput : GameInput :=
  { headers := [("WhiteElo", "2600"), ("BlackElo", "2600")], sans := [] }

/-- A one-game file whose game is always accepted (probability one). -/
def strongFile : FileInput := { filename := "w.pgn", games := [strongInput] }

/-- A two-game file of always-accepted games. -/
def strongFile2 : FileInput :=
  { filename := "w.pgn", games := [strongInput, strongInput] }

/-- A 1700-rated blitz game (acceptance probability `0.13`). -/
def blitzInput : GameInput :=
  { headers := [("WhiteElo", "1700"), ("BlackElo", "1700"),
      ("TimeControl", "180+0")], sans := [] }

/-- A one-game file holding the blitz game. -/
def blitzFile : FileInput := { filename := "a.pgn", games := [blitzInput] }

/-- A game with an unparseable Result header and one move. -/
def resultBadInput : GameInput :=
  { headers := [("WhiteElo", "2600"), ("BlackElo", "2600"),
      ("Result", "1/2-1/2*")], sans := ["e4"] }

/-- An importer state about to decide a flagged game between 2600-rated
players. -/
def flaggedImporter : Importer :=
  mkSampler ⟨halfStream, 0⟩ ⟨strongGame, true⟩

/-- A record whose rating sum exceeds the 16-bit range. -/
def overflowGame : Game :=
  { white := { rating := some 40000 }, black := { rating := some 40000 } }

/-- The importer state after processing `strongFile` at batch size one. -/
def strongFileResult : Importer :=
  { filename := "w.pgn"
    batch_size := 1
    rng := ⟨halfStream, 1⟩
    current := {}
    skip := false
    batch := []
    sent := [⟨"w.pgn", [strongGame]⟩, ⟨"w.pgn", []⟩] }

/-- The importer state after processing `strongFile2` at batch size two. -/
def strongFile2Result : Importer :=
  { filename := "w.pgn"
    batch_size := 2
    rng := ⟨halfStream, 2⟩
    current := {}
    skip := false
    batch := []
    sent := [⟨"w.pgn", [strongGame, strongGame]⟩, ⟨"w.pgn", []⟩] }

/-! Frame lemmas: which fields each visitor observation can touch. -/

theorem headerStep_skip {g : Game} {sk : Bool} {k v : String}
    {p : Game × Bool} (h : headerStep g sk k v = .ok p) :
    p.2 = sk ∨ p.2 = true := by
  unfold headerStep at h
  cases hk : classifyKey k <;> rw [hk] at h
  all_goals repeat' split at h
  all_goals cases h
  all_goals first | exact Or.inl rfl | exact Or.inr rfl

theorem header_frame {st st' : Importer} {k v : String}
    (h : st.header k v = .ok st') :
    st'.filename = st.filename ∧ st'.batch_size = st.batch_size ∧
    st'.rng = st.rng ∧ st'.batch = st.batch ∧ st'.sent = st.sent := by
  unfold Importer.header at h
  cases hh : headerStep st.current st.skip k v with
  | error e => rw [hh] at h; cases h
  | ok p =>
    rw [hh] at h
    simp only [Except.map, Except.ok.injEq] at h
    simp [← h]

theorem header_skip {st st' : Importer} {k v : String}
    (h : st.header k v = .ok st') (hs : st.skip = true) : st'.skip = true := by
  unfold Importer.header at h
  cases hh : headerStep st.current st.skip k v with
  | error e => rw [hh] at h; cases h
  | ok p =>
    rw [hh] at h
    simp only [Except.map, Except.ok.injEq] at h
    have := headerStep_skip hh
    rw [hs] at this
    simp only [← h]
    rcases this with h2 | h2 <;> simp [h2]

theorem headersFold_frame :
    ∀ (l : List (String × String)) {st st' : Importer},
    l.foldlM (fun s kv => s.header kv.1 kv.2) st = .ok st' →
    st'.filename = st.filename ∧ st'.batch_size = st.batch_size ∧
    st'.rng = st.rng ∧ st'.batch = st.batch ∧ st'.sent = st.sent
  | [], st, st', h => by
    rw [List.foldlM_nil] at h
    cases h
    exact ⟨rfl, rfl, rfl, rfl, rfl⟩
  | kv :: t, st, st', h => by
    rw [List.foldlM_cons] at h
    cases hh : st.header kv.1 kv.2 with
    | error e => rw [hh] at h; cases h
    | ok st1 =>
      rw [hh] at h
      have h1 := header_frame hh
      have h2 := @headersFold_frame t st1 st' h
      exact ⟨h2.1.trans h1.1, h2.2.1.trans h1.2.1, h2.2.2.1.trans h1.2.2.1,
        h2.2.2.2.1.trans h1.2.2.2.1, h2.2.2.2.2.trans h1.2.2.2.2⟩

theorem headersFold_skip :
    ∀ (l : List (String × String)) {st st' : Importer},
    l.foldlM (fun s kv => s.header kv.1 kv.2) st = .ok st' →
    st.skip = true → st'.skip = true
  | [], st, st', h, hs => by
    rw [List.foldlM_nil] at h
    cases h
    exact hs
  | kv :: t, st, st', h, hs => by
    rw [List.foldlM_cons] at h
    cases hh : st.header kv.1 kv.2 with
    | error e => rw [hh] at h; cases h
    | ok st1 =>
      rw [hh] at h
      exact headersFold_skip t h (header_skip hh hs)

theorem sanFold_frame :
    ∀ (ms : List String) (st : Importer),
    (ms.foldl Importer.san st).filename = st.filename ∧
    (ms.foldl Importer.san st).batch_size = st.batch_size ∧
    (ms.foldl Importer.san st).rng = st.rng ∧
    (ms.foldl Importer.san st).batch = st.batch ∧
    (ms.foldl Importer.san st).sent = st.sent ∧
    (ms.foldl Importer.san st).skip = st.skip
  | [], st => by simp
  | m :: t, st => by
    have h := sanFold_frame t (st.san m)
    simpa [Importer.san] using h

theorem end_headers_frame (st : Importer) :
    ((st.end_headers).2).filename = st.filename ∧
    ((st.end_headers).2).batch_size = st.batch_size ∧
    ((st.end_headers).2).batch = st.batch ∧
    ((st.end_headers).2).sent = st.sent ∧
    ((st.end_headers).2).current = st.current ∧
    ((st.end_headers).2).skip = (st.end_headers).1 ∧
    ((st.end_headers).2).rng.stream = st.rng.stream ∧
    st.rng.idx ≤ ((st.end_headers).2).rng.idx := by
  unfold Importer.end_headers
  split
  · simp [Rng.sample]
  · simp

theorem begin_game_frame (st : Importer) :
    st.begin_game.filename = st.filename ∧
    st.begin_game.batch_size = st.batch_size ∧
    st.begin_game.rng = st.rng ∧
    st.begin_game.batch = st.batch ∧
    st.begin_game.sent = st.sent := by
  exact ⟨rfl, rfl, rfl, rfl, rfl⟩

theorem end_game_of_skip {st : Importer} (h : st.skip = true) :
    st.end_game = st := by
  unfold Importer.end_game
  simp [h]

theorem end_game_flush {st : Importer} (h : st.skip = false)
    (hc : st.batch_size ≤ st.batch.length + 1) :
    st.end_game =
      ({ st with batch := st.batch ++ [st.current], current := {} } :
        Importer).send := by
  unfold Importer.end_game
  simp only [h, Bool.false_eq_true, if_false]
  rw [if_pos]
  simpa using hc

theorem end_game_push {st : Importer} (h : st.skip = false)
    (hc : ¬ st.batch_size ≤ st.batch.length + 1) :
    st.end_game = { st with batch := st.batch ++ [st.current], current := {} } := by
  unfold Importer.end_game
  simp only [h, Bool.false_eq_true, if_false]
  rw [if_neg]
  simpa using hc

/-- What one driven game does to the batching fields: the record is either
dropped, appended, or appended-and-flushed, and the PRNG stream is kept
while the position only advances. -/
theorem runGame_spec {st st' : Importer} {g : GameInput} {rec : Option Game}
    (h : runGame st g = .ok (st', rec)) :
    st'.filename = st.filename ∧ st'.batch_size = st.batch_size ∧
    st'.rng.stream = st.rng.stream ∧ st.rng.idx ≤ st'.rng.idx ∧
    ((rec = none ∧ st'.batch = st.batch ∧ st'.sent = st.sent) ∨
     (∃ r, rec = some r ∧
       ((st.batch_size ≤ st.batch.length + 1 ∧ st'.batch = [] ∧
         st'.sent = st.sent ++ [⟨st.filename, st.batch ++ [r]⟩]) ∨
        (¬ st.batch_size ≤ st.batch.length + 1 ∧
         st'.batch = st.batch ++ [r] ∧ st'.sent = st.sent)))) := by
  unfold runGame at h
  cases hf : (g.headers.foldlM (fun s kv => s.header kv.1 kv.2) st.begin_game :
      Except String Importer) with
  | error e => rw [hf] at h; cases h
  | ok st1 =>
    rw [hf] at h
    have hfr1 := headersFold_frame g.headers hf
    have hfr2 := end_headers_frame st1
    cases h
    set sk := (st1.end_headers).1 with hsk
    set st2 := (st1.end_headers).2 with hst2
    have hfr3 : (if sk then st2 else g.sans.foldl Importer.san st2).filename
          = st2.filename ∧
        (if sk then st2 else g.sans.foldl Importer.san st2).batch_size
          = st2.batch_size ∧
        (if sk then st2 else g.sans.foldl Importer.san st2).rng = st2.rng ∧
        (if sk then st2 else g.sans.foldl Importer.san st2).batch = st2.batch ∧
        (if sk then st2 else g.sans.foldl Importer.san st2).sent = st2.sent ∧
        (if sk then st2 else g.sans.foldl Importer.san st2).skip = st2.skip := by
      cases sk
      · simpa using sanFold_frame g.sans st2
      · simp
    set st3 := if sk then st2 else g.sans.foldl Importer.san st2 with hst3
    have hfn : st3.filename = st.filename := by
      rw [hfr3.1, hfr2.1, hfr1.1]; rfl
    have hbs : st3.batch_size = st.batch_size := by
      rw [hfr3.2.1, hfr2.2.1, hfr1.2.1]; rfl
    have hbatch : st3.batch = st.batch := by
      rw [hfr3.2.2.2.1, hfr2.2.2.1, hfr1.2.2.2.1]; rfl
    have hsent : st3.sent = st.sent := by
      rw [hfr3.2.2.2.2.1, hfr2.2.2.2.1, hfr1.2.2.2.2]; rfl
    have hstream : st3.rng.stream = st.rng.stream := by
      rw [hfr3.2.2.1, hfr2.2.2.2.2.2.2.1, hfr1.2.2.1]; rfl
    have hidx : st.rng.idx ≤ st3.rng.idx := by
      rw [hfr3.2.2.1]
      have h1 : st1.rng.idx = st.rng.idx := by rw [hfr1.2.2.1]; rfl
      rw [← h1]
      exact hfr2.2.2.2.2.2.2.2
    cases hskip : st3.skip with
    | true =>
      rw [end_game_of_skip hskip]
      exact ⟨hfn, hbs, hstream, hidx, Or.inl ⟨rfl, hbatch, hsent⟩⟩
    | false =>
      by_cases hcond : st3.batch_size ≤ st3.batch.length + 1
      · rw [end_game_flush hskip hcond]
        refine ⟨by simp [Importer.send, hfn], by simp [Importer.send, hbs],
          by simp [Importer.send, hstream], by simpa [Importer.send] using hidx,
          Or.inr ⟨st3.current, rfl, Or.inl ⟨?_, ?_, ?_⟩⟩⟩
        · rw [← hbs, ← hbatch]; exact hcond
        · simp [Importer.send]
        · simp [Importer.send, hfn, hbatch, hsent]
      · rw [end_game_push hskip hcond]
        refine ⟨hfn, hbs, hstream, hidx,
          Or.inr ⟨st3.current, rfl, Or.inr ⟨?_, ?_, ?_⟩⟩⟩
        · rw [← hbs, ← hbatch]; exact hcond
        · simp [hbatch]
        · simpa using hsent

/-- Concatenation invariant: the games of the flushed batches followed by
the open batch grow exactly by the accepted records, in order. -/
theorem runGames_concat :
    ∀ (gs : List GameInput) {st st' : Importer} {tr : List (Option Game)},
    runGames st gs = .ok (st', tr) →
    (st'.sent.map Batch.games).flatten ++ st'.batch =
      (st.sent.map Batch.games).flatten ++ st.batch ++ tr.filterMap id
  | [], st, st', tr, h => by
    cases h
    simp
  | g :: rest, st, st', tr, h => by
    unfold runGames at h
    split at h
    · cases h
    rename_i st1 r hg
    split at h
    · cases h
    rename_i st2 tr2 hr
    cases h
    have ih := runGames_concat rest hr
    have hs := runGame_spec hg
    rcases hs.2.2.2.2 with ⟨hnone, hb, hsent⟩ | ⟨rr, hrr, hcase⟩
    · subst hnone
      rw [ih, hb, hsent]
      simp
    · subst hrr
      rcases hcase with ⟨hc, hb, hsent⟩ | ⟨hc, hb, hsent⟩
      · rw [ih, hb, hsent]
        simp
      · rw [ih, hb, hsent]
        simp

/-- Size invariant: when the configured batch size is at least one, the open
batch stays below it and every flushed batch has exactly that many games. -/
theorem runGames_sizes :
    ∀ (gs : List GameInput) {st st' : Importer} {tr : List (Option Game)},
    runGames st gs = .ok (st', tr) →
    1 ≤ st.batch_size → st.batch.length < st.batch_size →
    (∀ b ∈ st.sent, b.games.length = st.batch_size) →
    st'.batch.length < st.batch_size ∧
    (∀ b ∈ st'.sent, b.games.length = st.batch_size)
  | [], st, st', tr, h, _, hlt, hall => by
    cases h
    exact ⟨hlt, hall⟩
  | g :: rest, st, st', tr, h, hB, hlt, hall => by
    unfold runGames at h
    split at h
    · cases h
    rename_i st1 r hg
    split at h
    · cases h
    rename_i st2 tr2 hr
    cases h
    have hs := runGame_spec hg
    have hbs : st1.batch_size = st.batch_size := hs.2.1
    have step : st1.batch.length < st.batch_size ∧
        (∀ b ∈ st1.sent, b.games.length = st.batch_size) := by
      rcases hs.2.2.2.2 with ⟨_, hb, hsent⟩ | ⟨rr, _, hcase⟩
      · rw [hb, hsent]; exact ⟨hlt, hall⟩
      · rcases hcase with ⟨hc, hb, hsent⟩ | ⟨hc, hb, hsent⟩
        · refine ⟨by rw [hb]; simpa using hB, ?_⟩
          rw [hsent]
          intro b hbmem
          rcases List.mem_append.1 hbmem with hold | hnew
          · exact hall b hold
          · rcases List.mem_singleton.1 hnew with rfl
            have hle : st.batch.length + 1 ≤ st.batch_size := hlt
            simp only [List.length_append, List.length_cons,
              List.length_nil]
            omega
        · refine ⟨?_, by rw [hsent]; exact hall⟩
          rw [hb]
          simp only [List.length_append, List.length_cons, List.length_nil]
          omega
    have ih := runGames_sizes rest hr (by rw [hbs]; exact hB)
      (by rw [hbs]; exact step.1) (by rw [hbs]; exact step.2)
    rw [← hbs]
    exact ih

/-- PRNG invariant within one file: the stream is never replaced and the
position only advances as the games are processed. -/
theorem runGames_rng :
    ∀ (gs : List GameInput) {st st' : Importer} {tr : List (Option Game)},
    runGames st gs = .ok (st', tr) →
    st'.rng.stream = st.rng.stream ∧ st.rng.idx ≤ st'.rng.idx
  | [], st, st', tr, h => by
    cases h
    exact ⟨rfl, Nat.le_refl _⟩
  | g :: rest, st, st', tr, h => by
    unfold runGames at h
    split at h
    · cases h
    rename_i st1 r hg
    split at h
    · cases h
    rename_i st2 tr2 hr
    cases h
    have hs := runGame_spec hg
    have ih := runGames_rng rest hr
    exact ⟨ih.1.trans hs.2.2.1, hs.2.2.2.1.trans ih.2⟩

/-! Behaviour of the end-of-headers decision. -/

/-- A flagged game stays flagged: the returned skip decision is `true`. -/
theorem end_headers_skip_true {st : Importer} (h : st.skip = true) :
    (st.end_headers).1 = true := by
  unfold Importer.end_headers
  split
  · simp [h, Rng.sample]
  · rfl

/-- A minimum rating below 1501 short-circuits the accept condition: the
game is rejected and the sample is never drawn (the PRNG is untouched). -/
theorem end_headers_low_rating {st : Importer}
    (h : min (st.current.white.rating.getD 0)
      (st.current.black.rating.getD 0) < 1501) :
    (st.end_headers).1 = true ∧ (st.end_headers).2.skip = true ∧
    (st.end_headers).2.rng = st.rng := by
  unfold Importer.end_headers
  rw [if_neg (Nat.not_le.mpr h)]
  exact ⟨rfl, rfl, rfl⟩

/-- When the minimum rating passes the hard filter, one sample is drawn and
the decision compares it with the acceptance probability. -/
theorem end_headers_pass {st : Importer}
    (hmin : 1501 ≤ min (st.current.white.rating.getD 0)
      (st.current.black.rating.getD 0)) :
    (st.end_headers).1 =
      (!((decide (st.rng.stream st.rng.idx ≤ acceptProbability st.current)) &&
        !st.skip)) ∧
    (st.end_headers).2.rng = ⟨st.rng.stream, st.rng.idx + 1⟩ := by
  unfold Importer.end_headers
  rw [if_pos hmin]
  exact ⟨rfl, rfl⟩

/-! Behaviour of the Result header. -/

theorem header_result_unparseable {st : Importer} {v : String}
    (hv : parseOutcome v = none) :
    st.header "Result" v = .ok { st with skip := true } := by
  unfold Importer.header headerStep
  have hc : classifyKey "Result" = HeaderKey.KResult := by decide
  rw [hc, hv]
  rfl

theorem header_result_parseable {st : Importer} {v : String} {w : Option Color}
    (hv : parseOutcome v = some w) :
    st.header "Result" v =
      .ok { st with current := { st.current with winner := w } } := by
  unfold Importer.header headerStep
  have hc : classifyKey "Result" = HeaderKey.KResult := by decide
  rw [hc, hv]
  rfl

/-- The unknown-rating sentinel leaves the rating absent: the header
observation is a no-op. -/
theorem header_elo_unknown (s : Importer) :
    s.header "WhiteElo" "?" = .ok s ∧ s.header "BlackElo" "?" = .ok s :=
  ⟨rfl, rfl⟩

/-- A header list containing an unparseable Result leaves the rejection flag
set at the end of the headers. -/
theorem headersFold_result_skip :
    ∀ (l : List (String × String)) {v : String} {st st1 : Importer},
    parseOutcome v = none → ("Result", v) ∈ l →
    l.foldlM (fun s kv => s.header kv.1 kv.2) st = .ok st1 →
    st1.skip = true
  | [], v, st, st1, _, hmem, _ => absurd hmem (List.not_mem_nil _)
  | kv :: t, v, st, st1, hv, hmem, hfold => by
    rw [List.foldlM_cons] at hfold
    cases hh : st.header kv.1 kv.2 with
    | error e => rw [hh] at hfold; cases hfold
    | ok s1 =>
      rw [hh] at hfold
      rcases List.mem_cons.1 hmem with heq | htail
      · have hh2 : st.header "Result" v = .ok s1 := by
          rw [← heq] at hh
          exact hh
        rw [header_result_unparseable hv] at hh2
        cases hh2
        exact headersFold_skip t hfold rfl
      · exact headersFold_result_skip t hv htail hfold

/-! Claim theorems. -/

/-- Claim C1 (counterexample): at seconds `2 ^ 64 - 10` and increment `1`
the estimated total is at least 21600, yet the classifier returns Bullet,
because the `u64` addition wraps modulo `2 ^ 64`; the claimed threshold
mapping (and with it monotonicity) fails on overflowing pairs. -/
theorem speed_classifier_overflow_counterexample :
    21600 ≤ (2 ^ 64 - 10) + 40 * 1 ∧
    Speed.from_seconds_and_increment (2 ^ 64 - 10) 1 = .Bullet ∧
    ¬ Speed.from_seconds_and_increment (2 ^ 64 - 10) 1 = .Correspondence := by
  refine ⟨by decide, by decide, by decide⟩

/-- Claim C1 (amended): for every pair of non-negative integers whose
estimated total `seconds + 40 * increment` fits in `u64`, the classifier is
the stated threshold function of the total alone (hence total: every such
pair maps to exactly one bucket) and is monotone in the total. -/
theorem speed_classifier_thresholds (s i s2 i2 : Nat)
    (h : s + 40 * i < 2 ^ 64) (h2 : s2 + 40 * i2 < 2 ^ 64) :
    (Speed.from_seconds_and_increment s i =
      (if s + 40 * i < 30 then .UltraBullet
       else if s + 40 * i < 180 then .Bullet
       else if s + 40 * i < 480 then .Blitz
       else if s + 40 * i < 1500 then .Rapid
       else if s + 40 * i < 21600 then .Classical
       else .Correspondence)) ∧
    (s + 40 * i ≤ s2 + 40 * i2 →
      speedIdx (Speed.from_seconds_and_increment s i) ≤
        speedIdx (Speed.from_seconds_and_increment s2 i2)) := by
  have hm : (s + 40 * i) % u64Size = s + 40 * i := Nat.mod_eq_of_lt h
  have hm2 : (s2 + 40 * i2) % u64Size = s2 + 40 * i2 := Nat.mod_eq_of_lt h2
  constructor
  · unfold Speed.from_seconds_and_increment
    rw [hm]
  · intro hle
    unfold Speed.from_seconds_and_increment
    rw [hm, hm2]
    dsimp only
    split_ifs <;> simp only [speedIdx] <;> omega

/-- Claim C1 witness: concrete classifications through the amended theorem. -/
theorem speed_classifier_thresholds_witness :
    Speed.from_seconds_and_increment 60 0 = .Bullet ∧
    speedIdx (Speed.from_seconds_and_increment 60 0) ≤
      speedIdx (Speed.from_seconds_and_increment 1500 0) := by
  have h := speed_classifier_thresholds 60 0 1500 0 (by decide) (by decide)
  refine ⟨?_, h.2 (by decide)⟩
  rw [h.1]
  decide

/-- Claim C2: whenever the lower of the two ratings (an absent rating
counting as zero) is below 1501, the end-of-headers decision rejects the
game for every PRNG state — no sample is drawn, so the outcome holds for
every possible sample value — regardless of speed bucket, variant, or
average rating, and the rejected game is never appended by `end_game`. -/
theorem low_min_rating_rejected (st : Importer)
    (h : min (st.current.white.rating.getD 0)
      (st.current.black.rating.getD 0) < 1501) :
    (st.end_headers).1 = true ∧ (st.end_headers).2.skip = true ∧
    (st.end_headers).2.rng = st.rng ∧
    ((st.end_headers).2).end_game = (st.end_headers).2 :=
  have h2 := end_headers_low_rating h
  ⟨h2.1, h2.2.1, h2.2.2, end_game_of_skip h2.2.1⟩

/-- Claim C2 witness: a 1500-vs-2000 game is rejected outright. -/
theorem low_min_rating_rejected_witness :
    ((mkSampler ⟨halfStream, 0⟩
      ⟨{ white := { rating := some 1500 }, black := { rating := some 2000 } },
        false⟩).end_headers).1 = true :=
  (low_min_rating_rejected _ (by decide)).1

/-- Claim C3 (counterexample): a game already flagged for rejection with
both ratings at 2600 is rejected at end-of-headers, yet a random sample IS
drawn: the PRNG position advances from 0 to 1, refuting the claim that the
generator state is unchanged (the flag is tested after the sample in the
short-circuit chain of the accept condition). -/
theorem flagged_game_sample_drawn_counterexample :
    (flaggedImporter.end_headers).1 = true ∧
    flaggedImporter.rng.idx = 0 ∧
    (flaggedImporter.end_headers).2.rng.idx = 1 := by
  refine ⟨by decide, by decide, by decide⟩

/-- Claim C3 (amended): a game whose rejection flag is already set when the
headers end is rejected outright regardless of rating or speed; the
stochastic step is skipped (the PRNG untouched) exactly when the minimum
rating is below 1501, while for higher-rated flagged games one sample is
drawn and discarded, advancing the generator by one position. -/
theorem flagged_game_rejected (st : Importer) (h : st.skip = true) :
    (st.end_headers).1 = true ∧
    (min (st.current.white.rating.getD 0)
        (st.current.black.rating.getD 0) < 1501 →
      (st.end_headers).2.rng = st.rng) ∧
    (1501 ≤ min (st.current.white.rating.getD 0)
        (st.current.black.rating.getD 0) →
      (st.end_headers).2.rng = ⟨st.rng.stream, st.rng.idx + 1⟩) :=
  ⟨end_headers_skip_true h,
   fun hlt => (end_headers_low_rating hlt).2.2,
   fun hge => (end_headers_pass hge).2⟩

/-- Claim C3 witness: a flagged game between unrated players is rejected
with the PRNG untouched. -/
theorem flagged_game_rejected_witness :
    ((mkSampler ⟨halfStream, 0⟩ ⟨{}, true⟩).end_headers).1 = true ∧
    ((mkSampler ⟨halfStream, 0⟩ ⟨{}, true⟩).end_headers).2.rng =
      (mkSampler ⟨halfStream, 0⟩ ⟨{}, true⟩).rng :=
  have h := flagged_game_rejected (mkSampler ⟨halfStream, 0⟩ ⟨{}, true⟩) rfl
  ⟨h.1, h.2.1 (by decide)⟩

/-- Claim C4: the sampling decision sequence is a function of the seed
stream and its position together with the policy inputs alone — two runs
with the same seed agree outcome by outcome — and a decision that passes
the hard filter with a clear flag draws exactly one sample, accepting iff
the probability is at least the sample (samples range over the open-closed
unit interval by the external `OpenClosed01` contract). -/
theorem sampling_deterministic (r1 r2 : Rng) (ins : List PolicyInput)
    (hs : ∀ n, r1.stream n = r2.stream n) (hi : r1.idx = r2.idx) :
    decideSeq r1 ins = decideSeq r2 ins ∧
    (∀ (rng : Rng) (inp : PolicyInput),
      1501 ≤ min (inp.game.white.rating.getD 0)
        (inp.game.black.rating.getD 0) →
      inp.skip = false →
      ((mkSampler rng inp).end_headers).2.rng = ⟨rng.stream, rng.idx + 1⟩ ∧
      (((mkSampler rng inp).end_headers).1 = false ↔
        rng.stream rng.idx ≤ acceptProbability inp.game)) := by
  constructor
  · obtain ⟨s1, i1⟩ := r1
    obtain ⟨s2, i2⟩ := r2
    rw [show s1 = s2 from funext hs, show i1 = i2 from hi]
  · intro rng inp hmin hskip
    have h1 := (@end_headers_pass (mkSampler rng inp) hmin).1
    have h2 := (@end_headers_pass (mkSampler rng inp) hmin).2
    refine ⟨h2, ?_⟩
    rw [h1]
    simp [mkSampler, hskip]

/-- Claim C4 witness: a concrete one-decision run agrees with itself, and a
concrete passing decision consumes exactly one sample. -/
theorem sampling_deterministic_witness :
    decideSeq ⟨halfStream, 0⟩ [⟨strongGame, false⟩] =
      decideSeq ⟨halfStream, 0⟩ [⟨strongGame, false⟩] ∧
    ((mkSampler ⟨halfStream, 0⟩ ⟨strongGame, false⟩).end_headers).2.rng =
      ⟨halfStream, 1⟩ :=
  have h := sampling_deterministic ⟨halfStream, 0⟩ ⟨halfStream, 0⟩
    [⟨strongGame, false⟩] (fun _ => rfl) rfl
  ⟨h.1, (h.2 ⟨halfStream, 0⟩ ⟨strongGame, false⟩ (by decide) rfl).1⟩

/-- Claim C5 (counterexample): `main` constructs a fresh constant-seeded
importer per file, so a two-file run repeats the seed stream for the second
file instead of continuing it: on the same two-file input the run's batch
game counts are `[0, 0]`, while the spec-modelled seeded-once run yields
`[0, 1, 0]`. -/
theorem per_file_reseeding_counterexample :
    (runMain exStream 1 [blitzFile, blitzFile]).toOption.map
      (List.map (fun b => b.games.length)) = some [0, 0] ∧
    (runMainSeededOnce 1 ⟨exStream, 0⟩ [blitzFile, blitzFile]).toOption.map
      (List.map (fun b => b.games.length)) = some [0, 1, 0] ∧
    some [(0 : Nat), 0] ≠ some [0, 1, 0] := by
  refine ⟨by decide, by decide, by decide⟩

/-- Claim C5 (amended): within a single file the PRNG acts as one continuing
stream — the stream function is never replaced and its position only
advances — but the generator is re-seeded per file, not once per run: every
file of a multi-file run starts from the constant seed (position 0 of the
seed stream), because `main` rebuilds the importer for each file. -/
theorem per_file_seeding (seedStream : Nat → ℚ) (B : Nat) (f : FileInput)
    (rest : List FileInput) (st : Importer) (tr : List (Option Game))
    (h : runGames (Importer.new f.filename B seedStream) f.games =
      .ok (st, tr)) :
    st.rng.stream = seedStream ∧
    (Importer.new f.filename B seedStream).rng.idx = 0 ∧
    (Importer.new f.filename B seedStream).rng.idx ≤ st.rng.idx ∧
    runMain seedStream B (f :: rest) =
      (match runFile seedStream B f with
       | .error e => .error e
       | .ok (st1, _) =>
         match runMain seedStream B rest with
         | .error e => .error e
         | .ok batches => .ok (st1.sent ++ batches)) :=
  have hr := runGames_rng f.games h
  ⟨hr.1, rfl, hr.2, rfl⟩

/-- Claim C5 witness: the amended theorem applied to a concrete one-file
run. -/
theorem per_file_seeding_witness :
    runMain halfStream 1 [strongFile] =
      (match runFile halfStream 1 strongFile with
       | .error e => .error e
       | .ok (st1, _) =>
         match runMain halfStream 1 ([] : List FileInput) with
         | .error e => .error e
         | .ok batches => .ok (st1.sent ++ batches)) :=
  (per_file_seeding halfStream 1 strongFile [] _ [some strongGame]
    rfl).2.2.2

/-- Claim C6 (counterexample): with configured batch size 0 (accepted by the
command line) the open batch is flushed as soon as one record is pushed,
because the flush condition is `≥`: a file with one accepted game flushes
batches of sizes 1 and then 0, so a non-final batch has 1 ≠ 0 records. -/
theorem batch_size_zero_counterexample :
    (runFile halfStream 0 strongFile).toOption.map
      (fun p => p.1.sent.map (fun b => b.games.length)) = some [1, 0] ∧
    ¬ (∀ x ∈ [1, 0].dropLast, x = 0) := by
  refine ⟨by decide, by decide⟩

/-- Claim C6 (amended): with a configured batch size of at least one, every
batch flushed for a file except the final flush has exactly `batch_size`
records, and the final flush — which happens exactly once per file, possibly
empty — has between 0 and `batch_size` records inclusive. -/
theorem batch_size_invariant (seedStream : Nat → ℚ) (B : Nat) (f : FileInput)
    (st : Importer) (tr : List (Option Game)) (hB : 1 ≤ B)
    (h : runFile seedStream B f = .ok (st, tr)) :
    st.sent ≠ [] ∧
    (∀ b ∈ st.sent.dropLast, b.games.length = B) ∧
    (∀ b, st.sent.getLast? = some b → b.games.length ≤ B) := by
  unfold runFile at h
  split at h
  · cases h
  rename_i st1 tr1 hg
  cases h
  have hsz := runGames_sizes f.games hg hB hB
    (fun b hb => absurd hb (List.not_mem_nil b))
  refine ⟨?_, ?_, ?_⟩
  · simp [Importer.send]
  · intro b hb
    simp only [Importer.send] at hb
    rw [List.dropLast_concat] at hb
    exact hsz.2 b hb
  · intro b hb
    simp only [Importer.send, List.getLast?_concat] at hb
    cases hb
    exact Nat.le_of_lt hsz.1

/-- Claim C6 witness: one accepted game at batch size one flushes a full
batch and then an empty final one. -/
theorem batch_size_invariant_witness : strongFileResult.sent ≠ [] :=
  (batch_size_invariant halfStream 1 strongFile strongFileResult
    [some strongGame] (Nat.le_refl 1) rfl).1

/-- Claim C7: per file, concatenating the record sequences of the flushed
batches in flush order (which is the order the channel hands them to the
uploader) yields exactly the accepted games in their original encounter
order. -/
theorem batch_order_preservation (seedStream : Nat → ℚ) (B : Nat)
    (f : FileInput) (st : Importer) (tr : List (Option Game))
    (h : runFile seedStream B f = .ok (st, tr)) :
    (st.sent.map Batch.games).flatten = tr.filterMap id := by
  unfold runFile at h
  split at h
  · cases h
  rename_i st1 tr1 hg
  cases h
  have hc := runGames_concat f.games hg
  simp only [Importer.new, List.map_nil, List.flatten_nil,
    List.nil_append] at hc
  simp only [Importer.send, List.map_append, List.flatten_append,
    List.map_cons, List.flatten_cons, List.map_nil, List.flatten_nil,
    List.append_nil]
  exact hc

/-- Claim C7 witness: two accepted games at batch size two come back as one
full batch plus an empty final flush, concatenating to the accepted
sequence. -/
theorem batch_order_preservation_witness :
    (strongFile2Result.sent.map Batch.games).flatten =
      ([some strongGame, some strongGame].filterMap id) :=
  batch_order_preservation halfStream 2 strongFile2 strongFile2Result
    [some strongGame, some strongGame] rfl

/-- Claim C9: an unparseable Result header sets the rejection flag (which no
later header clears), so end-of-headers returns the skip decision: the run
is insensitive to the game's move events (none are delivered) and the game
is never appended to a batch; for a parseable Result, the derived winner
(absent for a draw or unknown outcome) is stored instead. -/
theorem unparseable_result_rejected (st : Importer) (g : GameInput)
    (v : String) (hv : parseOutcome v = none)
    (hmem : ("Result", v) ∈ g.headers) :
    runGame st g = runGame st { g with sans := [] } ∧
    (∀ st2 rec, runGame st g = .ok (st2, rec) →
      rec = none ∧ st2.batch = st.batch ∧ st2.sent = st.sent) ∧
    (∀ (s : Importer) (w : Option Color) (v2 : String),
      parseOutcome v2 = some w →
      s.header "Result" v2 =
        .ok { s with current := { s.current with winner := w } }) := by
  refine ⟨?_, ?_, fun s w v2 hv2 => header_result_parseable hv2⟩
  · unfold runGame
    cases hf : (g.headers.foldlM (fun s kv => s.header kv.1 kv.2)
        st.begin_game : Except String Importer) with
    | error e => rfl
    | ok st1 =>
      have h1 : (st1.end_headers).1 = true :=
        end_headers_skip_true (headersFold_result_skip g.headers hv hmem hf)
      simp [h1]
  · intro st2 rec hok
    unfold runGame at hok
    cases hf : (g.headers.foldlM (fun s kv => s.header kv.1 kv.2)
        st.begin_game : Except String Importer) with
    | error e => rw [hf] at hok; cases hok
    | ok st1 =>
      rw [hf] at hok
      have h1 : (st1.end_headers).1 = true :=
        end_headers_skip_true (headersFold_result_skip g.headers hv hmem hf)
      have hfr1 := headersFold_frame g.headers hf
      have hfr2 := end_headers_frame st1
      have hsk2 : ((st1.end_headers).2).skip = true := by
        rw [hfr2.2.2.2.2.2.1]
        exact h1
      simp only [h1, if_true, reduceIte] at hok
      rw [end_game_of_skip hsk2, hsk2] at hok
      simp only [if_true, reduceIte] at hok
      cases hok
      refine ⟨rfl, ?_, ?_⟩
      · rw [hfr2.2.2.1, hfr1.2.2.2.1]; rfl
      · rw [hfr2.2.2.2.1, hfr1.2.2.2.2]; rfl

/-- Claim C9 witness: a concrete game with Result `1/2-1/2*` behaves
identically with and without its move events. -/
theorem unparseable_result_rejected_witness :
    runGame (Importer.new "w.pgn" 1 halfStream) resultBadInput =
      runGame (Importer.new "w.pgn" 1 halfStream)
        { resultBadInput with sans := [] } :=
  (unparseable_result_rejected (Importer.new "w.pgn" 1 halfStream)
    resultBadInput "1/2-1/2*" (by decide) (by decide)).1

/-- Claim C10: a game in which either player's rating is absent (no rating
header was seen, or the unknown-rating sentinel `?` left it unset, which the
header observation provably does) is rejected unconditionally at
end-of-headers: the absent rating counts as zero in the minimum-rating hard
filter and zero is below 1501 — regardless of the other player's rating,
the speed bucket, or the variant, with no sample drawn. -/
theorem absent_rating_rejected (st : Importer)
    (h : st.current.white.rating = none ∨ st.current.black.rating = none) :
    (st.end_headers).1 = true ∧ (st.end_headers).2.skip = true ∧
    (st.end_headers).2.rng = st.rng ∧
    (∀ s : Importer, s.header "WhiteElo" "?" = .ok s ∧
      s.header "BlackElo" "?" = .ok s) := by
  have hmin : min (st.current.white.rating.getD 0)
      (st.current.black.rating.getD 0) < 1501 := by
    rcases h with h | h <;> rw [h] <;> simp
  have h2 := end_headers_low_rating hmin
  exact ⟨h2.1, h2.2.1, h2.2.2, header_elo_unknown⟩

/-- Claim C10 witness: an unrated white against a 2800 black is rejected. -/
theorem absent_rating_rejected_witness :
    ((mkSampler ⟨halfStream, 0⟩
      ⟨{ black := { rating := some 2800 } }, false⟩).end_headers).1 = true :=
  (absent_rating_rejected _ (Or.inl rfl)).1

/-- Claim C8 (counterexample): for ratings 40000 and 40000 the exact average
is 40000, but the addition in the importer is performed in `u16` and wraps
modulo `2 ^ 16`, so the rating fed into the probability computation is 7232
(a debug build would trap on the same input — either way the claimed exact
average fails beyond the 16-bit range). -/
theorem avg_rating_overflow_counterexample :
    avgRating overflowGame = 7232 ∧
    (40000 + 40000) / 2 = 40000 ∧ (7232 : Nat) ≠ 40000 := by
  refine ⟨by decide, by decide, by decide⟩

/-- Claim C8 (amended): the rating fed into the acceptance-probability
computation is the exact integer average `(white + black) / 2`, an absent
rating taken as zero, whenever that sum fits the 16-bit range; on larger
sums the 16-bit addition wraps modulo `2 ^ 16` before halving. -/
theorem avg_rating_exact (g : Game)
    (h : g.white.rating.getD 0 + g.black.rating.getD 0 < u16Size) :
    avgRating g = (g.white.rating.getD 0 + g.black.rating.getD 0) / 2 := by
  unfold avgRating
  rw [Nat.mod_eq_of_lt h]

/-- Claim C8 witness: the average of 2600 and 2600 is computed exactly. -/
theorem avg_rating_exact_witness : avgRating strongGame = 2600 :=
  (avg_rating_exact strongGame (by decide)).trans (by decide)

end OpeningExplorer
